import Mathlib

/-!
Shallow embedding of the transactional wallet service (Go, `Hapkiduki/wallet`).

The embedding models:
* the domain records `User` and `Wallet` (`internal/domain/user.go`, wallet file);
* the Postgres-backed repositories (`internal/infrastructure/postgres/...`),
  where `Update` delegates to GORM `Save` (update all fields; insert when the
  update matched no row) and `Save` delegates to GORM `Create` (insert, failing
  on a unique-constraint conflict, per the SQL schema: users.id primary key,
  users.username unique, users.dni unique, wallets.id primary key);
* the transaction boundary `postgresTxnRepository.WithTransaction`, which in
  the source hands the callback the ORIGINAL request context (`return fn(ctx)`)
  while every repository runs statements on the root `*gorm.DB` handle — so
  statements issued by the callback execute OUTSIDE the opened transaction and
  auto-commit one by one; the rollback on error undoes nothing;
* the usecases `walletUsecase.Recharge`, `walletUsecase.Transfer` and
  `userUsecase.Create`;
* the read-through cache decorator `cachedUserRepository.FindByID`.

Balances are `float64` in Go backed by a `decimal` column; they are modelled
as exact rationals (`Rat`).  Generated UUIDs (`uuid.New()`) are modelled as
explicit parameters.  Infrastructure failures (a storage statement failing)
are modelled by explicit failure-injection fields in the system state.
-/

namespace WalletApp

/-- Error taxonomy.  The Go code returns untyped `errors.New` values; the
constructor records the category the spec and the HTTP handlers assign to the
message, and the payload is the exact Go message string. -/
inductive Err where
  | invalidArgument (msg : String)
  | notFound (msg : String)
  | failedPrecondition (msg : String)
  | conflict (msg : String)
  | internal (msg : String)
  deriving Repr, DecidableEq

/-- Model of `domain.User` (internal/domain/user.go).  Timestamps are storage-managed
metadata and are omitted. -/
structure User where
  id : String
  username : String
  name : String
  dni : String
  deriving Repr, DecidableEq

/-- Model of `domain.Wallet` (internal/domain). -/
structure Wallet where
  id : String
  userID : String
  currency : String
  balance : Rat
  deriving Repr, DecidableEq

/-- Model of `domain.DefaultCurrency`. -/
def DefaultCurrency : String := "USD"

/-- Model of `domain.DefaultBalance`. -/
def DefaultBalance : Rat := 0

/-- Model of `domain.NewWallet`: a wallet with default values, owned by `userID`
(the caller sets the id afterwards, as `userUsecase.Create` does). -/
def NewWallet (userID : String) : Wallet :=
  { id := "", userID := userID, currency := DefaultCurrency, balance := DefaultBalance }

/-- The wallets table: rows keyed by `Wallet.id` (primary key). -/
def findW (ws : List Wallet) (i : String) : Option Wallet :=
  ws.find? (fun w => w.id == i)

/-- GORM `Save` on the wallets table: UPDATE every row whose primary key
matches (all fields written); if no row was affected, INSERT the value. -/
def saveW (ws : List Wallet) (w : Wallet) : List Wallet :=
  if ws.any (fun x => x.id == w.id) then
    ws.map (fun x => if x.id == w.id then w else x)
  else
    ws ++ [w]

/-- System state: the committed database tables plus a transaction-open
counter (instrumentation for "no transaction is opened") and the
failure-injection fields modelling infrastructure errors. -/
structure Sys where
  users : List User
  wallets : List Wallet
  txnCount : Nat
  /-- wallet ids for which the UPDATE statement of `Update` fails (infra). -/
  updateFailIds : List String
  /-- injected infrastructure failure of `userRepo.FindByUsername`. -/
  userLookupFail : Bool
  deriving Repr, DecidableEq

/-- Model of `postgresWalletRepository.FindByID`. -/
def walletFindByID (s : Sys) (i : String) : Except Err Wallet :=
  match findW s.wallets i with
  | some w => .ok w
  | none => .error (.notFound "wallet not found")

/-- Model of `postgresWalletRepository.Update`: `db.Save(wallet)` — update all fields
by primary key, insert when the id matches no row; an injected infrastructure
failure makes the statement error without touching the table. -/
def walletUpdate (s : Sys) (w : Wallet) : Sys × Except Err Unit :=
  if w.id ∈ s.updateFailIds then (s, .error (.internal "update failed"))
  else ({ s with wallets := saveW s.wallets w }, .ok ())

/-- Model of `postgresWalletRepository.Save`: `db.Create(wallet)` — insert, failing on
the wallets primary-key constraint. -/
def walletSave (s : Sys) (w : Wallet) : Sys × Except Err Unit :=
  if s.wallets.any (fun x => x.id == w.id) then
    (s, .error (.conflict "duplicate key value violates unique constraint"))
  else ({ s with wallets := s.wallets ++ [w] }, .ok ())

/-- Model of `postgresUserRepository.FindByUsername` (with injected infra failure). -/
def userFindByUsername (s : Sys) (username : String) : Except Err User :=
  if s.userLookupFail then .error (.internal "database unavailable")
  else
    match s.users.find? (fun u => u.username == username) with
    | some u => .ok u
    | none => .error (.notFound "user not found")

/-- Model of `postgresUserRepository.Save`: `db.Create(user)` — insert, failing on the
users unique constraints (id primary key, username unique, dni unique). -/
def userSave (s : Sys) (u : User) : Sys × Except Err Unit :=
  if s.users.any (fun x => x.id == u.id || x.username == u.username || x.dni == u.dni) then
    (s, .error (.conflict "duplicate key value violates unique constraint"))
  else ({ s with users := s.users ++ [u] }, .ok ())

/-- Model of `postgresTxnRepository.WithTransaction`: a transaction is opened (counted),
but the callback receives the original context and every repository statement
runs on the root connection, so the callback's writes commit immediately and
are NOT undone when the callback returns an error; the callback's result is
returned unchanged. -/
def withTransaction (s : Sys) (fn : Sys → Sys × Except Err Unit) : Sys × Except Err Unit :=
  fn { s with txnCount := s.txnCount + 1 }

/-- Body of the closure `walletUsecase.Recharge` passes to `WithTransaction`:
load the wallet, add `amount` to its balance, persist via `Update`. -/
def rechargeTxn (st : Sys) (walletID : String) (amount : Rat) : Sys × Except Err Unit :=
  match walletFindByID st walletID with
  | .error e => (st, .error e)
  | .ok w => walletUpdate st { w with balance := w.balance + amount }

/-- Model of `walletUsecase.Recharge`. -/
def recharge (s : Sys) (walletID : String) (amount : Rat) : Sys × Except Err Unit :=
  if amount ≤ 0 then (s, .error (.invalidArgument "recharge amount must be positive"))
  else withTransaction s (fun st => rechargeTxn st walletID amount)

/-- Body of the closure `walletUsecase.Transfer` passes to `WithTransaction`:
load sender, check funds, load receiver, debit/credit in memory, persist
sender then receiver via `Update`. -/
def transferTxn (st : Sys) (fromWalletID toWalletID : String) (amount : Rat) :
    Sys × Except Err Unit :=
  match walletFindByID st fromWalletID with
  | .error _ => (st, .error (.notFound "sender wallet not found"))
  | .ok fromWallet =>
    if fromWallet.balance < amount then (st, .error (.failedPrecondition "insufficient funds"))
    else
      match walletFindByID st toWalletID with
      | .error _ => (st, .error (.notFound "receiver wallet not found"))
      | .ok toWallet =>
        let fromW := { fromWallet with balance := fromWallet.balance - amount }
        let toW := { toWallet with balance := toWallet.balance + amount }
        match walletUpdate st fromW with
        | (st1, .error e) => (st1, .error e)
        | (st1, .ok _) =>
          match walletUpdate st1 toW with
          | (st2, .error e) => (st2, .error e)
          | (st2, .ok _) => (st2, .ok ())

/-- Model of `walletUsecase.Transfer`. -/
def transfer (s : Sys) (fromWalletID toWalletID : String) (amount : Rat) :
    Sys × Except Err Unit :=
  if amount ≤ 0 then (s, .error (.invalidArgument "transfer amount must be positive"))
  else if fromWalletID == toWalletID then
    (s, .error (.invalidArgument "cannot transfer to the same wallet"))
  else withTransaction s (fun st => transferTxn st fromWalletID toWalletID amount)

/-- Body of the closure `userUsecase.Create` passes to `WithTransaction`:
save the user, then build and save its empty wallet (`NewWallet` plus a
generated id, modelled as the parameter `walletID`). -/
def createTxn (st : Sys) (user : User) (walletID : String) : Sys × Except Err Unit :=
  match userSave st user with
  | (st1, .error e) => (st1, .error e)
  | (st1, .ok _) => walletSave st1 { NewWallet user.id with id := walletID }

/-- The part of `userUsecase.Create` after the username pre-check: build the
new `User` (id from `uuid.New()`, modelled as the parameter `newUserID`),
then run the user insert and the wallet insert through `WithTransaction`
(the wallet id from a second `uuid.New()`, modelled as `newWalletID`). -/
def userCreateAttempt (s : Sys) (username name dni newUserID newWalletID : String) :
    Sys × Except Err User :=
  let user : User := { id := newUserID, username := username, name := name, dni := dni }
  match withTransaction s (fun st => createTxn st user newWalletID) with
  | (s1, .error e) => (s1, .error e)
  | (s1, .ok _) => (s1, .ok user)

/-- Model of `userUsecase.Create`: pre-check by username BEFORE any transaction
(`if err == nil && existingUser != nil` → "username already exists"); on any
lookup error the pre-check is treated as passed and the attempt proceeds. -/
def userCreate (s : Sys) (username name dni newUserID newWalletID : String) :
    Sys × Except Err User :=
  match userFindByUsername s username with
  | .ok _ => (s, .error (.conflict "username already exists"))
  | .error _ => userCreateAttempt s username name dni newUserID newWalletID

/-- Cache key used by `cachedUserRepository.FindByID`; the used by `cachedUserRepository.FindByID`:
`fmt.Sprintf("user:%s", id)`. -/
def userCacheKey (i : String) : String := "user:" ++ i

/-- Model of `cachedUserRepository.FindByID`: try the cache under `user:<id>`; on a hit
whose JSON deserializes, return it; otherwise delegate to the backing store;
on a backing-store success the snapshot is written to the cache with a 5
minute TTL, but the write's result (`setRes`) is discarded, so it cannot
change the returned value.  The cache `Get` outcome, the JSON decoder and the
backing store's answer for this one call are the parameters `getRes`,
`unmarshal` and `nextRes`. -/
def cachedFindByID (getRes : Except String String) (unmarshal : String → Option User)
    (nextRes : Except Err User) (setRes : Except String Unit) : Except Err User :=
  let hit : Option User :=
    match getRes with
    | .ok s => if s ≠ "" then unmarshal s else none
    | .error _ => none
  match hit with
  | some u => .ok u
  | none =>
    match nextRes with
    | .error e => .error e
    | .ok u =>
      match setRes with
      | _ => .ok u

/-!
Concurrent executions.  Each request runs in its own goroutine; the store's
transaction mechanism is a no-op for the usecase statements (see
`withTransaction`), so reads see the committed table and every write commits
immediately.  A thread is one in-flight `Recharge` or `Transfer` call, broken
at the statement boundaries of the Go code; the scheduler interleaves the
statements of any number of threads.
-/

/-- Control state of one in-flight ledger operation, holding its local
variables (the wallet values it has read). -/
inductive Th where
  /-- State of `Recharge(wid, a)` about to run its validation. -/
  | rechargeStart (wid : String) (a : Rat)
  /-- recharge read `w` via `FindByID`; next it writes `w.balance + a`. -/
  | rechargeRead (wid : String) (a : Rat) (w : Wallet)
  /-- State of `Transfer(f, t, a)` about to run its validations. -/
  | transferStart (f t : String) (a : Rat)
  /-- transfer read the sender `fw`; next it checks the balance and reads
  the receiver. -/
  | transferReadFrom (f t : String) (a : Rat) (fw : Wallet)
  /-- transfer passed the funds check and read the receiver `tw`; next it
  writes the debited sender. -/
  | transferReadTo (a : Rat) (fw tw : Wallet)
  /-- transfer persisted the debited sender; next it writes the credited
  receiver. -/
  | transferWroteFrom (a : Rat) (tw : Wallet)
  /-- the operation returned successfully. -/
  | done
  /-- the operation returned an error (validation, missing wallet,
  insufficient funds, or a failed storage statement). -/
  | failed
  deriving Repr, DecidableEq

/-- One statement of one thread, acting on the committed wallets table.
Reads use the current table; writes are GORM `Save` statements that commit at
once (statement failures are the `...Fail` constructors: the thread errors
out and — the transaction boundary being broken — nothing is undone). -/
inductive tstep : List Wallet → Th → List Wallet → Th → Prop where
  | rechargeBadAmount : a ≤ 0 → tstep ws (.rechargeStart wid a) ws .failed
  | rechargeReadOk : 0 < a → findW ws wid = some w →
      tstep ws (.rechargeStart wid a) ws (.rechargeRead wid a w)
  | rechargeReadMissing : 0 < a → findW ws wid = none →
      tstep ws (.rechargeStart wid a) ws .failed
  | rechargeWrite :
      tstep ws (.rechargeRead wid a w) (saveW ws { w with balance := w.balance + a }) .done
  | rechargeWriteFail : tstep ws (.rechargeRead wid a w) ws .failed
  | transferBadArgs : a ≤ 0 ∨ f = t → tstep ws (.transferStart f t a) ws .failed
  | transferReadFromOk : 0 < a → f ≠ t → findW ws f = some fw →
      tstep ws (.transferStart f t a) ws (.transferReadFrom f t a fw)
  | transferReadFromMissing : 0 < a → f ≠ t → findW ws f = none →
      tstep ws (.transferStart f t a) ws .failed
  | transferInsufficient : fw.balance < a → tstep ws (.transferReadFrom f t a fw) ws .failed
  | transferReadToOk : a ≤ fw.balance → findW ws t = some tw →
      tstep ws (.transferReadFrom f t a fw) ws (.transferReadTo a fw tw)
  | transferReadToMissing : a ≤ fw.balance → findW ws t = none →
      tstep ws (.transferReadFrom f t a fw) ws .failed
  | transferWriteFrom :
      tstep ws (.transferReadTo a fw tw) (saveW ws { fw with balance := fw.balance - a })
        (.transferWroteFrom a tw)
  | transferWriteFromFail : tstep ws (.transferReadTo a fw tw) ws .failed
  | transferWriteTo :
      tstep ws (.transferWroteFrom a tw) (saveW ws { tw with balance := tw.balance + a }) .done
  | transferWriteToFail : tstep ws (.transferWroteFrom a tw) ws .failed

/-- A scheduler step: some thread executes its next statement. -/
inductive sysStep : List Wallet × List Th → List Wallet × List Th → Prop where
  | step (ws ws' : List Wallet) (ts : List Th) (i : Nat) (hi : i < ts.length) (th' : Th) :
      tstep ws (ts.get ⟨i, hi⟩) ws' th' → sysStep (ws, ts) (ws', ts.set i th')

/-- Every wallet row has a non-negative balance. -/
def storeNonNeg (ws : List Wallet) : Prop := ∀ w ∈ ws, 0 ≤ w.balance

/-- A thread that has not yet executed any statement. -/
def IsStart : Th → Prop
  | .rechargeStart _ _ => True
  | .transferStart _ _ _ => True
  | _ => False

/-- Facts each control state guarantees about its local variables (amount
positivity from the validations, the funds check, and non-negativity of read
balances). -/
def thOK : Th → Prop
  | .rechargeRead _ a w => 0 < a ∧ 0 ≤ w.balance
  | .transferReadFrom _ _ a _ => 0 < a
  | .transferReadTo a fw tw => 0 < a ∧ a ≤ fw.balance ∧ 0 ≤ tw.balance
  | .transferWroteFrom a tw => 0 < a ∧ 0 ≤ tw.balance
  | _ => True

/-- The system invariant: non-negative table and every thread's local facts. -/
def sysOK (c : List Wallet × List Th) : Prop :=
  storeNonNeg c.1 ∧ ∀ th ∈ c.2, thOK th

/-! ### Lemmas about the wallets table -/

theorem findW_mem {ws : List Wallet} {i : String} {w : Wallet}
    (h : findW ws i = some w) : w ∈ ws ∧ w.id = i := by
  unfold findW at h
  refine ⟨List.mem_of_find?_eq_some h, ?_⟩
  have hp := List.find?_some h
  simpa using hp

theorem findW_map_upd_self {ws : List Wallet} {w : Wallet}
    (hany : ws.any (fun x => x.id == w.id) = true) :
    findW (ws.map (fun x => if x.id == w.id then w else x)) w.id = some w := by
  induction ws with
  | nil => simp at hany
  | cons x t ih =>
    unfold findW at ih ⊢
    rw [List.map_cons]
    by_cases hx : x.id = w.id
    · rw [if_pos (beq_iff_eq.mpr hx)]
      exact List.find?_cons_of_pos _ (by simp)
    · have hany2 : t.any (fun y => y.id == w.id) = true := by
        rcases List.any_eq_true.mp hany with ⟨y, hy, hpy⟩
        rcases List.mem_cons.mp hy with rfl | hy2
        · exact absurd (beq_iff_eq.mp hpy) hx
        · exact List.any_eq_true.mpr ⟨y, hy2, hpy⟩
      rw [if_neg (by simpa using hx), List.find?_cons_of_neg _ (by simpa using hx)]
      exact ih hany2

theorem findW_map_upd_ne {ws : List Wallet} {w : Wallet} {j : String} (hj : w.id ≠ j) :
    findW (ws.map (fun x => if x.id == w.id then w else x)) j = findW ws j := by
  induction ws with
  | nil => rfl
  | cons x t ih =>
    unfold findW at ih ⊢
    rw [List.map_cons]
    by_cases hx : x.id = w.id
    · have hxj : ¬ x.id = j := by rw [hx]; exact hj
      rw [if_pos (beq_iff_eq.mpr hx), List.find?_cons_of_neg _ (by simpa using hj),
        List.find?_cons_of_neg _ (by simpa using hxj)]
      exact ih
    · rw [if_neg (by simpa using hx)]
      by_cases hxj : x.id = j
      · rw [List.find?_cons_of_pos _ (by simpa using hxj),
          List.find?_cons_of_pos _ (by simpa using hxj)]
      · rw [List.find?_cons_of_neg _ (by simpa using hxj),
          List.find?_cons_of_neg _ (by simpa using hxj)]
        exact ih

theorem findW_saveW_self {ws : List Wallet} {w : Wallet} :
    findW (saveW ws w) w.id = some w := by
  unfold saveW
  split
  case isTrue hany => exact findW_map_upd_self hany
  case isFalse hany =>
    have hfalse : ws.any (fun x => x.id == w.id) = false := by simpa using hany
    have h1 : List.find? (fun x => x.id == w.id) ws = none :=
      List.find?_eq_none.mpr (List.any_eq_false.mp hfalse)
    unfold findW
    rw [List.find?_append, h1]
    simp

theorem findW_saveW_ne {ws : List Wallet} {w : Wallet} {j : String}
    (hj : w.id ≠ j) : findW (saveW ws w) j = findW ws j := by
  unfold saveW
  split
  case isTrue hany => exact findW_map_upd_ne hj
  case isFalse hany =>
    unfold findW
    rw [List.find?_append]
    have h2 : List.find? (fun x => x.id == j) [w] = none := by
      simp [hj]
    rw [h2]
    cases List.find? (fun x => x.id == j) ws <;> rfl

theorem storeNonNeg_saveW {ws : List Wallet} {w : Wallet}
    (h : storeNonNeg ws) (hw : 0 ≤ w.balance) : storeNonNeg (saveW ws w) := by
  unfold saveW
  split
  · intro x hx
    rcases List.mem_map.mp hx with ⟨y, hy, hyx⟩
    by_cases hid : y.id = w.id
    · simp only [hid, beq_self_eq_true, if_true] at hyx
      exact hyx ▸ hw
    · simp only [beq_iff_eq, hid, if_false] at hyx
      exact hyx ▸ h y hy
  · intro x hx
    rcases List.mem_append.mp hx with hx | hx
    · exact h x hx
    · rcases List.mem_singleton.mp hx with rfl
      exact hw

theorem findW_nonneg {ws : List Wallet} {i : String} {w : Wallet}
    (h : findW ws i = some w) (hnn : storeNonNeg ws) : 0 ≤ w.balance :=
  hnn w (findW_mem h).1

/-! ### Preservation of the invariant by the concurrent machine -/

theorem tstep_preserves {ws ws' : List Wallet} {th th' : Th}
    (hstep : tstep ws th ws' th') (hnn : storeNonNeg ws) (hok : thOK th) :
    storeNonNeg ws' ∧ thOK th' := by
  cases hstep with
  | rechargeBadAmount _ => exact ⟨hnn, trivial⟩
  | rechargeReadOk ha hf => exact ⟨hnn, ha, findW_nonneg hf hnn⟩
  | rechargeReadMissing _ _ => exact ⟨hnn, trivial⟩
  | rechargeWrite =>
    obtain ⟨ha, hw⟩ := hok
    exact ⟨storeNonNeg_saveW hnn (by simpa using add_nonneg hw ha.le), trivial⟩
  | rechargeWriteFail => exact ⟨hnn, trivial⟩
  | transferBadArgs _ => exact ⟨hnn, trivial⟩
  | transferReadFromOk ha _ _ => exact ⟨hnn, ha⟩
  | transferReadFromMissing _ _ _ => exact ⟨hnn, trivial⟩
  | transferInsufficient _ => exact ⟨hnn, trivial⟩
  | transferReadToOk hbal ht => exact ⟨hnn, hok, hbal, findW_nonneg ht hnn⟩
  | transferReadToMissing _ _ => exact ⟨hnn, trivial⟩
  | transferWriteFrom =>
    obtain ⟨ha, hbal, htw⟩ := hok
    exact ⟨storeNonNeg_saveW hnn (by simpa using sub_nonneg.mpr hbal), ha, htw⟩
  | transferWriteFromFail => exact ⟨hnn, trivial⟩
  | transferWriteTo =>
    obtain ⟨ha, htw⟩ := hok
    exact ⟨storeNonNeg_saveW hnn (by simpa using add_nonneg htw ha.le), trivial⟩
  | transferWriteToFail => exact ⟨hnn, trivial⟩

theorem sysStep_preserves {c c' : List Wallet × List Th}
    (hstep : sysStep c c') (hok : sysOK c) : sysOK c' := by
  cases hstep with
  | step ws ws' ts i hi th' hts =>
    obtain ⟨hnn, hths⟩ := hok
    have hcur : thOK (ts.get ⟨i, hi⟩) := hths _ (ts.get_mem i hi)
    obtain ⟨hnn', hth'⟩ := tstep_preserves hts hnn hcur
    refine ⟨hnn', ?_⟩
    intro th hth
    rcases List.mem_or_eq_of_mem_set hth with h | rfl
    · exact hths th h
    · exact hth'

theorem sysOK_of_reach {c c' : List Wallet × List Th}
    (hr : Relation.ReflTransGen sysStep c c') (hok : sysOK c) : sysOK c' := by
  induction hr with
  | refl => exact hok
  | tail _ hstep ih => exact sysStep_preserves hstep ih

theorem thOK_of_isStart {th : Th} (h : IsStart th) : thOK th := by
  cases th with
  | rechargeStart wid a => trivial
  | transferStart f t a => trivial
  | done => trivial
  | failed => trivial
  | rechargeRead wid a w => exact h.elim
  | transferReadFrom f t a fw => exact h.elim
  | transferReadTo a fw tw => exact h.elim
  | transferWroteFrom a tw => exact h.elim

/-- Decidable equality on `Except`, so concrete runs can be checked by
`decide`. -/
instance exceptDecEq {α β : Type} [DecidableEq α] [DecidableEq β] :
    DecidableEq (Except α β) := fun x y =>
  match x, y with
  | .ok a, .ok b =>
    if h : a = b then isTrue (by rw [h])
    else isFalse (by intro hc; injection hc; contradiction)
  | .error a, .error b =>
    if h : a = b then isTrue (by rw [h])
    else isFalse (by intro hc; injection hc; contradiction)
  | .ok _, .error _ => isFalse (by intro hc; exact Except.noConfusion hc)
  | .error _, .ok _ => isFalse (by intro hc; exact Except.noConfusion hc)

/-! ### Concrete sample data used by witnesses and counterexamples -/

/-- A wallet with balance 10. -/
def wA : Wallet := { id := "A", userID := "u1", currency := "USD", balance := 10 }

/-- A wallet with balance 5. -/
def wB : Wallet := { id := "B", userID := "u2", currency := "USD", balance := 5 }

/-- A healthy two-wallet system with no injected failures. -/
def sys0 : Sys :=
  { users := [], wallets := [wA, wB], txnCount := 0, updateFailIds := [], userLookupFail := false }

/-- A system holding the user "alice", lookups healthy. -/
def sysAlice : Sys :=
  { users := [{ id := "u1", username := "alice", name := "Alice", dni := "1" }], wallets := [],
    txnCount := 0, updateFailIds := [], userLookupFail := false }

/-- The same system with the username lookup failing (infrastructure down). -/
def sysLookupDown : Sys :=
  { users := [{ id := "u1", username := "alice", name := "Alice", dni := "1" }], wallets := [],
    txnCount := 0, updateFailIds := [], userLookupFail := true }

/-! ### Bookkeeping lemmas for `userUsecase.Create` -/

theorem userSave_txnCount (s : Sys) (u : User) : (userSave s u).1.txnCount = s.txnCount := by
  unfold userSave
  split <;> rfl

theorem walletSave_txnCount (s : Sys) (w : Wallet) :
    (walletSave s w).1.txnCount = s.txnCount := by
  unfold walletSave
  split <;> rfl

theorem createTxn_txnCount (st : Sys) (user : User) (wid : String) :
    (createTxn st user wid).1.txnCount = st.txnCount := by
  unfold createTxn
  rcases h : userSave st user with ⟨st1, r1⟩
  have h1 : st1.txnCount = st.txnCount := by
    have := userSave_txnCount st user
    rw [h] at this
    exact this
  cases r1 with
  | error e => exact h1
  | ok _ =>
    have h2 := walletSave_txnCount st1 { NewWallet user.id with id := wid }
    rw [h2]
    exact h1

theorem userCreateAttempt_txnCount (s : Sys) (username name dni uid wid : String) :
    (userCreateAttempt s username name dni uid wid).1.txnCount = s.txnCount + 1 := by
  have hw : (withTransaction s (fun st =>
      createTxn st { id := uid, username := username, name := name, dni := dni } wid)).1.txnCount
      = s.txnCount + 1 :=
    createTxn_txnCount { s with txnCount := s.txnCount + 1 }
      { id := uid, username := username, name := name, dni := dni } wid
  unfold userCreateAttempt
  dsimp only
  rcases h : withTransaction s (fun st =>
      createTxn st { id := uid, username := username, name := name, dni := dni } wid) with ⟨s1, r⟩
  rw [h] at hw
  cases r <;> simpa using hw

/-! ### Claim theorems -/

/-- C5: for every walletID and amount ≤ 0, Recharge fails InvalidArgument;
for amount ≤ 0 or fromWalletID = toWalletID, Transfer fails InvalidArgument;
in all these cases the returned state is exactly the input state — so no
transaction is opened (`txnCount` unchanged) and every wallet's stored
balance is unchanged. -/
theorem C5_validation_rejects (s : Sys) (walletID fromID toID : String) (a : Rat) :
    (a ≤ 0 → recharge s walletID a
      = (s, .error (.invalidArgument "recharge amount must be positive"))) ∧
    (a ≤ 0 → transfer s fromID toID a
      = (s, .error (.invalidArgument "transfer amount must be positive"))) ∧
    (fromID = toID → 0 < a → transfer s fromID toID a
      = (s, .error (.invalidArgument "cannot transfer to the same wallet"))) := by
  refine ⟨fun h => ?_, fun h => ?_, fun heq h => ?_⟩
  · unfold recharge
    rw [if_pos h]
  · unfold transfer
    rw [if_pos h]
  · unfold transfer
    rw [if_neg (not_le.mpr h), if_pos (by simpa using heq)]

/-- Witness for C5 at amount −1 and at a same-wallet transfer of 2. -/
theorem C5_validation_rejects_witness :
    recharge sys0 "A" (-1)
      = (sys0, .error (.invalidArgument "recharge amount must be positive")) ∧
    transfer sys0 "A" "A" 2
      = (sys0, .error (.invalidArgument "cannot transfer to the same wallet")) :=
  ⟨(C5_validation_rejects sys0 "A" "A" "A" (-1)).1 (by decide),
   (C5_validation_rejects sys0 "A" "A" "A" 2).2.2 rfl (by decide)⟩

/-- C9: whenever the cache lookup misses (empty payload), fails, or returns a
snapshot that does not deserialize, the cache-decorated FindByID returns
exactly the backing store's answer, whatever the outcome of the subsequent
cache write is. -/
theorem C9_cache_miss_refines (getRes : Except String String)
    (unmarshal : String → Option User) (nextRes : Except Err User)
    (setRes : Except String Unit)
    (hmiss : (∃ e, getRes = .error e) ∨ getRes = .ok "" ∨
      (∀ str, getRes = .ok str → unmarshal str = none)) :
    cachedFindByID getRes unmarshal nextRes setRes = nextRes := by
  have hnext :
      (match nextRes with
        | .error e => (.error e : Except Err User)
        | .ok u => match setRes with | _ => .ok u) = nextRes := by
    cases nextRes <;> rfl
  unfold cachedFindByID
  rcases hmiss with ⟨e, rfl⟩ | rfl | hdec
  · exact hnext
  · simpa using hnext
  · cases getRes with
    | error e => exact hnext
    | ok str =>
      by_cases hne : str = ""
      · subst hne
        simpa using hnext
      · have hdec2 := hdec str rfl
        simpa [hne, hdec2] using hnext

/-- Witness for C9: cache unavailable, backing store returns a user. -/
theorem C9_cache_miss_refines_witness :
    cachedFindByID (.error "redis: connection refused") (fun _ => none)
      (.ok { id := "u1", username := "alice", name := "Alice", dni := "1" })
      (.error "redis: connection refused")
      = .ok { id := "u1", username := "alice", name := "Alice", dni := "1" } :=
  C9_cache_miss_refines (.error "redis: connection refused") (fun _ => none)
    (.ok { id := "u1", username := "alice", name := "Alice", dni := "1" })
    (.error "redis: connection refused") (Or.inl ⟨"redis: connection refused", rfl⟩)

/-- C10: the duplicate-username pre-check rejects only when the lookup
succeeds; on ANY lookup error — "user not found" or an infrastructure
failure — Create proceeds to the transactional insert attempt (a transaction
is opened: `txnCount` is bumped by exactly one). -/
theorem C10_precheck_error_proceeds (s : Sys) (username name dni uid wid : String) (e : Err)
    (herr : userFindByUsername s username = .error e) :
    userCreate s username name dni uid wid = userCreateAttempt s username name dni uid wid ∧
    (userCreate s username name dni uid wid).1.txnCount = s.txnCount + 1 := by
  have h1 : userCreate s username name dni uid wid
      = userCreateAttempt s username name dni uid wid := by
    unfold userCreate
    rw [herr]
  exact ⟨h1, h1 ▸ userCreateAttempt_txnCount s username name dni uid wid⟩

/-- Witness for C10: the lookup fails with an injected infrastructure error
while a user with the requested username actually exists; Create still
proceeds to the transactional attempt. -/
theorem C10_precheck_error_proceeds_witness :
    userCreate sysLookupDown "alice" "Alice Two" "2" "u9" "w9"
      = userCreateAttempt sysLookupDown "alice" "Alice Two" "2" "u9" "w9" ∧
    (userCreate sysLookupDown "alice" "Alice Two" "2" "u9" "w9").1.txnCount
      = sysLookupDown.txnCount + 1 :=
  C10_precheck_error_proceeds sysLookupDown "alice" "Alice Two" "2" "u9" "w9"
    (.internal "database unavailable") (by decide)

/-- C6: when the username lookup finds an existing user, Create fails with
Conflict("username already exists") and returns the input state unchanged —
no User and no Wallet is persisted. -/
theorem C6_duplicate_username_conflict (s : Sys) (username name dni uid wid : String)
    (hinfra : s.userLookupFail = false)
    (hexists : ∃ u ∈ s.users, u.username = username) :
    userCreate s username name dni uid wid
      = (s, .error (.conflict "username already exists")) := by
  obtain ⟨u, hu, huname⟩ := hexists
  have hsome : (s.users.find? (fun x => x.username == username)).isSome :=
    List.find?_isSome.mpr ⟨u, hu, by simpa using huname⟩
  obtain ⟨v, hv⟩ := Option.isSome_iff_exists.mp hsome
  unfold userCreate userFindByUsername
  rw [hinfra, hv]
  rfl

/-- Witness for C6 at a concrete duplicate username. -/
theorem C6_duplicate_username_conflict_witness :
    userCreate sysAlice "alice" "Alice Two" "2" "u9" "w9"
      = (sysAlice, .error (.conflict "username already exists")) :=
  C6_duplicate_username_conflict sysAlice "alice" "Alice Two" "2" "u9" "w9" rfl
    ⟨{ id := "u1", username := "alice", name := "Alice", dni := "1" }, by decide, rfl⟩

/-- C2: starting from any wallets table in which every balance is ≥ 0,
after any interleaved (hence also any sequential) execution of freshly
issued Recharge and Transfer operations — each broken into its individual
read/check/write statements, with writes committing immediately as the
broken transaction boundary makes them do — every balance is still ≥ 0. -/
theorem C2_balance_never_negative (init fin : List Wallet × List Th)
    (hnn : storeNonNeg init.1) (hstart : ∀ th ∈ init.2, IsStart th)
    (hreach : Relation.ReflTransGen sysStep init fin) :
    storeNonNeg fin.1 :=
  (sysOK_of_reach hreach ⟨hnn, fun th hth => thOK_of_isStart (hstart th hth)⟩).1

/-- Witness for C2: two concurrent transfers out of wallet A interleave
their reads before either write; the final table is still non-negative. -/
theorem C2_balance_never_negative_witness :
    storeNonNeg ([wA], [Th.transferReadFrom "A" "B" 3 wA]).1 :=
  C2_balance_never_negative ([wA], [Th.transferStart "A" "B" 3])
    ([wA], [Th.transferReadFrom "A" "B" 3 wA])
    (fun w hw => by
      rcases List.mem_singleton.mp hw with rfl
      decide)
    (fun th hth => by
      rcases List.mem_singleton.mp hth with rfl
      trivial)
    (Relation.ReflTransGen.single
      (sysStep.step [wA] [wA] [Th.transferStart "A" "B" 3] 0 (by decide)
        (Th.transferReadFrom "A" "B" 3 wA)
        (tstep.transferReadFromOk (by decide) (by decide) (by decide))))

/-- C4: a transfer of a positive amount between two distinct wallets, whose
sender exists with balance below the amount, fails FailedPrecondition
("insufficient funds") and leaves both tables untouched (only the
transaction counter moved: a transaction was opened and rolled back empty);
the receiver is never loaded, so no hypothesis about it is needed and the
failure is the same when the receiver wallet is absent. -/
theorem C4_insufficient_funds (s : Sys) (f t : String) (a : Rat) (fw : Wallet)
    (ha : 0 < a) (hne : f ≠ t) (hf : findW s.wallets f = some fw)
    (hlt : fw.balance < a) :
    transfer s f t a = ({ s with txnCount := s.txnCount + 1 },
      .error (.failedPrecondition "insufficient funds")) := by
  unfold transfer withTransaction transferTxn walletFindByID
  rw [if_neg (not_le.mpr ha), if_neg (by simpa using hne)]
  dsimp only
  rw [show ({ s with txnCount := s.txnCount + 1 } : Sys).wallets = s.wallets from rfl, hf]
  dsimp only
  rw [if_pos hlt]

/-- Witness for C4: sender A has 10 < 20 and the receiver "Z" does not even
exist; the transfer still fails with insufficient funds. -/
theorem C4_insufficient_funds_witness :
    transfer sys0 "A" "Z" 20 = ({ sys0 with txnCount := sys0.txnCount + 1 },
      .error (.failedPrecondition "insufficient funds")) :=
  C4_insufficient_funds sys0 "A" "Z" 20 wA (by decide) (by decide) (by decide) (by decide)

/-- An empty system with no injected failures. -/
def sysEmpty : Sys :=
  { users := [], wallets := [], txnCount := 0, updateFailIds := [], userLookupFail := false }

/-- A wallet value that does not exist in `sysEmpty`. -/
def wNew : Wallet := { id := "W1", userID := "u7", currency := "USD", balance := 7 }

/-- Wallet "A" rewritten with a different currency and balance. -/
def wAeur : Wallet := { id := "A", userID := "u1", currency := "EUR", balance := 3 }

/-- Counterexample to C8 as stated: (i) updating a wallet whose identifier is
absent does NOT fail NotFound — it succeeds and creates the record (GORM
`Save` inserts when the update matched no row); (ii) the update overwrites
all fields, not only balance and the update timestamp: writing wallet "A"
with currency "EUR" replaces the stored currency. -/
theorem C8_counterexample :
    (walletUpdate sysEmpty wNew).2 = .ok () ∧
    (walletUpdate sysEmpty wNew).1.wallets = [wNew] ∧
    (¬ (walletUpdate sysEmpty wNew).2 = .error (.notFound "wallet not found")) ∧
    findW (walletUpdate sys0 wAeur).1.wallets "A" = some wAeur := by
  decide

/-- C8 amended: absent an injected infrastructure failure, `UpdateWallet(w)`
always succeeds; it overwrites ALL fields of the stored wallet with `w`'s
identifier, leaves every other identifier's row unchanged, and when no
stored wallet has that identifier it INSERTS `w` as a new record instead of
failing NotFound. -/
theorem C8_update_upserts (s : Sys) (w : Wallet) (hni : w.id ∉ s.updateFailIds) :
    (walletUpdate s w).2 = .ok () ∧
    findW (walletUpdate s w).1.wallets w.id = some w ∧
    (∀ j, j ≠ w.id → findW (walletUpdate s w).1.wallets j = findW s.wallets j) ∧
    ((∀ x ∈ s.wallets, x.id ≠ w.id) → (walletUpdate s w).1.wallets = s.wallets ++ [w]) := by
  unfold walletUpdate
  rw [if_neg hni]
  refine ⟨rfl, findW_saveW_self, fun j hj => findW_saveW_ne (fun hcon => hj hcon.symm), ?_⟩
  intro hall
  have hfalse : s.wallets.any (fun x => x.id == w.id) = false :=
    List.any_eq_false.mpr (fun x hx => by simpa using hall x hx)
  unfold saveW
  rw [hfalse]
  rfl

/-- Witness for C8 amended: updating absent "W1" in the empty system inserts
it and succeeds. -/
theorem C8_update_upserts_witness :
    (walletUpdate sysEmpty wNew).2 = .ok () ∧
    findW (walletUpdate sysEmpty wNew).1.wallets wNew.id = some wNew ∧
    (∀ j, j ≠ wNew.id →
      findW (walletUpdate sysEmpty wNew).1.wallets j = findW sysEmpty.wallets j) ∧
    ((∀ x ∈ sysEmpty.wallets, x.id ≠ wNew.id) →
      (walletUpdate sysEmpty wNew).1.wallets = sysEmpty.wallets ++ [wNew]) :=
  C8_update_upserts sysEmpty wNew (by decide)

/-- A system in which persisting wallet "B" fails (infrastructure error on
the UPDATE statement), while wallet "A" persists fine. -/
def sysFailB : Sys :=
  { users := [], wallets := [wA, wB], txnCount := 0, updateFailIds := ["B"],
    userLookupFail := false }

/-- C1 divergence, evaluated at the failing input: in
Transfer("A","B",4) the receiver persist fails after the sender persist
succeeded; the failure is returned, but the sender's stored balance has
ALREADY changed from 10 to 6 and stays committed — `WithTransaction` hands
the callback the original context while the repositories run on the root
connection, so the debit ran outside the transaction and the rollback undoes
nothing, contradicting the claimed (and documented) rollback semantics. -/
theorem C1_no_rollback_on_receiver_failure :
    findW sysFailB.wallets "A" = some wA ∧ wA.balance = 10 ∧
    (transfer sysFailB "A" "B" 4).2 = .error (.internal "update failed") ∧
    findW (transfer sysFailB "A" "B" 4).1.wallets "A"
      = some { id := "A", userID := "u1", currency := "USD", balance := 6 } ∧
    findW (transfer sysFailB "A" "B" 4).1.wallets "B" = some wB := by
  have heval : transfer sysFailB "A" "B" 4
      = ({ users := [],
           wallets := [{ id := "A", userID := "u1", currency := "USD", balance := 6 }, wB],
           txnCount := 1, updateFailIds := ["B"], userLookupFail := false },
         .error (.internal "update failed")) := by
    norm_num +decide [transfer, withTransaction, transferTxn, walletFindByID, walletUpdate,
      findW, saveW, sysFailB, wA, wB]
  rw [heval]
  exact ⟨by decide, by decide, rfl, by decide, by decide⟩

/-- Characterization of a committed transfer: success implies the
validations passed, both wallets were found, the funds check passed, the
storage statements succeeded, and the final wallets table is the two GORM
`Save` statements applied in order (sender first). -/
theorem transfer_ok_spec {s s' : Sys} {f t : String} {a : Rat}
    (h : transfer s f t a = (s', .ok ())) :
    ∃ fw tw, findW s.wallets f = some fw ∧ findW s.wallets t = some tw ∧
      0 < a ∧ f ≠ t ∧ a ≤ fw.balance ∧ s'.users = s.users ∧
      s'.wallets = saveW (saveW s.wallets { fw with balance := fw.balance - a })
        { tw with balance := tw.balance + a } := by
  unfold transfer withTransaction transferTxn walletFindByID walletUpdate at h
  dsimp only at h
  split at h
  · exact absurd (congrArg Prod.snd h) (by simp)
  next ha =>
    split at h
    · exact absurd (congrArg Prod.snd h) (by simp)
    next hft =>
      rcases hfind : findW s.wallets f with _ | fw
      · rw [hfind] at h
        exact absurd (congrArg Prod.snd h) (by simp)
      · rw [hfind] at h
        dsimp only at h
        split at h
        · exact absurd (congrArg Prod.snd h) (by simp)
        next hbal =>
          rcases htind : findW s.wallets t with _ | tw
          · rw [htind] at h
            exact absurd (congrArg Prod.snd h) (by simp)
          · rw [htind] at h
            dsimp only at h
            by_cases hni1 : fw.id ∈ s.updateFailIds
            · rw [if_pos hni1] at h
              exact absurd (congrArg Prod.snd h) (by simp)
            · rw [if_neg hni1] at h
              dsimp only at h
              by_cases hni2 : tw.id ∈ s.updateFailIds
              · rw [if_pos hni2] at h
                exact absurd (congrArg Prod.snd h) (by simp)
              · rw [if_neg hni2] at h
                dsimp only at h
                have h1 : _ = s' := congrArg Prod.fst h
                refine ⟨fw, tw, rfl, rfl, not_le.mp ha, by simpa using hft,
                  not_lt.mp hbal, ?_, ?_⟩
                · rw [← h1]
                · rw [← h1]

/-- C3: whenever a transfer commits, the sender's balance decreased by
exactly the amount, the receiver's increased by exactly the amount, and the
sum of the two involved balances is conserved. -/
theorem C3_transfer_conserves (s s' : Sys) (f t : String) (a : Rat) (fw tw : Wallet)
    (hsucc : transfer s f t a = (s', .ok ()))
    (hf : findW s.wallets f = some fw) (ht : findW s.wallets t = some tw) :
    ∃ fw2 tw2, findW s'.wallets f = some fw2 ∧ findW s'.wallets t = some tw2 ∧
      fw2.balance = fw.balance - a ∧ tw2.balance = tw.balance + a ∧
      fw2.balance + tw2.balance = fw.balance + tw.balance := by
  obtain ⟨fw0, tw0, hf0, ht0, ha, hft, hbal, hus, hws⟩ := transfer_ok_spec hsucc
  have hfw : fw0 = fw := Option.some.inj (hf0.symm.trans hf)
  have htw : tw0 = tw := Option.some.inj (ht0.symm.trans ht)
  rw [hfw] at hbal hws
  rw [htw] at hws
  have hfid : fw.id = f := hfw ▸ (findW_mem hf0).2
  have htid : tw.id = t := htw ▸ (findW_mem ht0).2
  refine ⟨{ fw with balance := fw.balance - a }, { tw with balance := tw.balance + a },
    ?_, ?_, rfl, rfl, by ring⟩
  · rw [hws]
    have h1 : findW (saveW (saveW s.wallets { fw with balance := fw.balance - a })
        { tw with balance := tw.balance + a }) f
        = findW (saveW s.wallets { fw with balance := fw.balance - a }) f :=
      findW_saveW_ne (show tw.id ≠ f by rw [htid]; exact Ne.symm hft)
    rw [h1, ← hfid]
    exact findW_saveW_self
  · rw [hws, ← htid]
    exact findW_saveW_self

/-- The wallets table of `sys0` after the committed Transfer("A","B",4). -/
def sys0After : Sys :=
  { users := [],
    wallets := [{ id := "A", userID := "u1", currency := "USD", balance := 6 },
      { id := "B", userID := "u2", currency := "USD", balance := 9 }],
    txnCount := 1, updateFailIds := [], userLookupFail := false }

/-- Concrete evaluation of the committed Transfer("A","B",4) on `sys0`. -/
theorem transfer_sys0_run : transfer sys0 "A" "B" 4 = (sys0After, .ok ()) := by
  norm_num +decide [transfer, withTransaction, transferTxn, walletFindByID, walletUpdate,
    findW, saveW, sys0, sys0After, wA, wB]

/-- Witness for C3: Transfer("A","B",4) commits on `sys0` (A:10, B:5). -/
theorem C3_transfer_conserves_witness :
    ∃ fw2 tw2, findW sys0After.wallets "A" = some fw2 ∧
      findW sys0After.wallets "B" = some tw2 ∧
      fw2.balance = wA.balance - 4 ∧ tw2.balance = wB.balance + 4 ∧
      fw2.balance + tw2.balance = wA.balance + wB.balance :=
  C3_transfer_conserves sys0 sys0After "A" "B" 4 wA wB transfer_sys0_run
    (by decide) (by decide)

/-- C7: when Create succeeds, the returned user is the freshly built record,
it is appended to the users table, and exactly one wallet owned by the new
user exists — the freshly built one, with the generated id `wid`, owner
`uid`, currency "USD" and balance 0 — both persisted by the same call.  The
hypotheses state freshness of the two generated identifiers: no existing
wallet is owned by `uid`, and the two generated UUIDs differ. -/
theorem C7_create_provisions_wallet (s s' : Sys) (username name dni uid wid : String)
    (u : User) (hok : userCreate s username name dni uid wid = (s', .ok u))
    (howner : ∀ w ∈ s.wallets, w.userID ≠ uid) (hneq : wid ≠ uid) :
    u = { id := uid, username := username, name := name, dni := dni } ∧
    s'.users = s.users ++ [u] ∧
    s'.wallets.filter (fun w => w.userID == uid)
      = [{ id := wid, userID := uid, currency := "USD", balance := 0 }] ∧
    wid ≠ uid := by
  unfold userCreate at hok
  rcases hlook : userFindByUsername s username with e0 | u0
  case _ =>
    rw [hlook] at hok
    dsimp only at hok
    unfold userCreateAttempt createTxn withTransaction userSave walletSave at hok
    dsimp only at hok
    by_cases hdup :
        (s.users.any fun x => x.id == uid || x.username == username || x.dni == dni) = true
    · rw [if_pos hdup] at hok
      exact absurd (congrArg Prod.snd hok) (by simp)
    · rw [if_neg hdup] at hok
      dsimp only at hok
      by_cases hwdup : (s.wallets.any fun x => x.id == wid) = true
      · rw [if_pos hwdup] at hok
        exact absurd (congrArg Prod.snd hok) (by simp)
      · rw [if_neg hwdup] at hok
        dsimp only at hok
        have h1 : _ = s' := congrArg Prod.fst hok
        have h2 := congrArg Prod.snd hok
        dsimp only at h2
        have hu : u = { id := uid, username := username, name := name, dni := dni } :=
          (Except.ok.inj h2).symm
        refine ⟨hu, ?_, ?_, hneq⟩
        · rw [← h1, hu]
        · rw [← h1]
          dsimp only
          rw [List.filter_append]
          have hnil : s.wallets.filter (fun w => w.userID == uid) = [] :=
            List.filter_eq_nil_iff.mpr (fun w hw => by simpa using howner w hw)
          rw [hnil]
          simp [NewWallet, DefaultCurrency, DefaultBalance]
  case _ =>
    rw [hlook] at hok
    exact absurd (congrArg Prod.snd hok) (by simp)

/-- The state `sysAlice` after the successful Create("bob","Bob","9") with generated
ids "u9" (user) and "w9" (wallet). -/
def sysAliceBob : Sys :=
  { users := [{ id := "u1", username := "alice", name := "Alice", dni := "1" },
      { id := "u9", username := "bob", name := "Bob", dni := "9" }],
    wallets := [{ id := "w9", userID := "u9", currency := "USD", balance := 0 }],
    txnCount := 1, updateFailIds := [], userLookupFail := false }

/-- Witness for C7: creating "bob" in `sysAlice` succeeds and provisions his
single zero-balance USD wallet. -/
theorem C7_create_provisions_wallet_witness :
    ({ id := "u9", username := "bob", name := "Bob", dni := "9" } : User)
      = { id := "u9", username := "bob", name := "Bob", dni := "9" } ∧
    sysAliceBob.users = sysAlice.users
      ++ [{ id := "u9", username := "bob", name := "Bob", dni := "9" }] ∧
    sysAliceBob.wallets.filter (fun w => w.userID == "u9")
      = [{ id := "w9", userID := "u9", currency := "USD", balance := 0 }] ∧
    "w9" ≠ "u9" :=
  C7_create_provisions_wallet sysAlice sysAliceBob "bob" "Bob" "9" "u9" "w9"
    { id := "u9", username := "bob", name := "Bob", dni := "9" } (by decide)
    (fun w hw => by simp [sysAlice] at hw) (by decide)

end WalletApp

